import Mathlib

/-!
# Robot control program: colour sorting task and driver-control loop

A shallow embedding of `src/main.cpp`.  Hardware calls (motor commands, sensor
reads, task delays, pneumatics) are recorded as events of a trace; the values
the hardware hands back (hue samples, button readings, the value of the shared
flag `colorsortOn` seen by the colour task) are inputs of the embedding.
-/

set_option autoImplicit false

namespace Robot

/-! ## Values -/

/-- Values of a C++ `double`, as far as the ordered comparisons of the program
can tell them apart: not-a-number, the two infinities, and the finite values
(every finite `double` is a rational number). -/
inductive Double where
  | nan
  | negInf
  | posInf
  | finite (q : ℚ)
  deriving DecidableEq

namespace Double

/-- Conversion of an integer literal to `double`, as in `colorValue > 150`. -/
def ofInt (n : Int) : Double := finite n

/-- IEEE-754 `a < b`: false as soon as one side is not-a-number. -/
def lt : Double → Double → Bool
  | nan, _ => false
  | _, nan => false
  | negInf, negInf => false
  | negInf, _ => true
  | _, negInf => false
  | posInf, _ => false
  | finite _, posInf => true
  | finite a, finite b => decide (a < b)

/-- IEEE-754 `a > b`. -/
def gt (a b : Double) : Bool := lt b a

/-- IEEE-754 `a <= b`: false as soon as one side is not-a-number. -/
def le : Double → Double → Bool
  | nan, _ => false
  | _, nan => false
  | negInf, _ => true
  | _, negInf => false
  | _, posInf => true
  | posInf, finite _ => false
  | finite a, finite b => decide (a ≤ b)

end Double

/-- Wrap-around of a mathematical integer into the range of `std::int32_t`. -/
def wrapInt32 (x : Int) : Int := (x + 2147483648) % 4294967296 - 2147483648

/-! ## Hardware and events -/

/-- The four `pros::Motor` objects the modelled code commands. -/
inductive Motor where
  | intake
  | intake2
  | TopSpinner
  | BottomSpinner
  deriving DecidableEq

/-- One hardware call, in the order the program makes it. -/
inductive Event where
  /-- Call `colorsensor.get_hue()` returning `v`. -/
  | get_hue (v : Double)
  /-- Call `m.move(voltage)`. -/
  | move (m : Motor) (voltage : Int)
  /-- Call `pros::delay(ms)`. -/
  | delay (ms : Nat)
  /-- Call `m.set_brake_mode(pros::E_MOTOR_BRAKE_BRAKE)`. -/
  | set_brake_mode (m : Motor)
  /-- Call `chassis.tank(leftY, rightY)`. -/
  | tank (leftY rightY : Int)
  /-- Call `scraper.extend()`. -/
  | extend
  /-- Call `scraper.retract()`. -/
  | retract
  deriving DecidableEq

/-! ## The colour task -/

/-- What the colour task observes at one evaluation of `while (colorsortOn)`:
the value of the shared flag at that moment and the hue the sensor returns if
the loop body is entered. -/
structure Obs where
  colorsortOn : Bool
  hue : Double
  deriving DecidableEq

/-- The condition `colorValue > 150 && colorValue < 270` of `colorSort`. -/
def isBlue (colorValue : Double) : Bool :=
  Double.gt colorValue (Double.ofInt 150) && Double.lt colorValue (Double.ofInt 270)

/-- One execution of the body of the `while (colorsortOn)` loop of
`colorSort`, the sensor returning `hue`. -/
def colorSortBody (hue : Double) : List Event :=
  let colorValue := hue
  if isBlue colorValue then
    [Event.get_hue hue, Event.move Motor.BottomSpinner 0, Event.move Motor.TopSpinner 0,
      Event.delay 1000]
  else
    [Event.get_hue hue, Event.move Motor.BottomSpinner 0, Event.move Motor.TopSpinner 127]

/-- The function `colorSort`, run against a list of observations.  Returns the
events emitted and `some rest` when the loop has seen the flag false and the
function returned (`rest` being the observations not yet consumed), or `none`
when the observations ran out with the loop still running. -/
def colorSort : List Obs → List Event × Option (List Obs)
  | [] => ([], none)
  | o :: rest =>
    if o.colorsortOn then
      (colorSortBody o.hue ++ (colorSort rest).1, (colorSort rest).2)
    else
      ([], some rest)

/-- The body of `colorTask` in `initialize`: `while (true) { colorSort();
pros::delay(10); }`, run for at most `fuel` passes of the outer loop. -/
def colorTask : Nat → List Obs → List Event
  | 0, _ => []
  | fuel + 1, obs =>
    match colorSort obs with
    | (ev, none) => ev
    | (ev, some rest) => ev ++ Event.delay 10 :: colorTask fuel rest

/-- Powers last commanded to the two spinner motors. -/
structure Spinners where
  top : Int
  bottom : Int
  deriving DecidableEq

/-- Effect of one event on the spinner powers. -/
def Spinners.step (s : Spinners) : Event → Spinners
  | Event.move Motor.TopSpinner v => { s with top := v }
  | Event.move Motor.BottomSpinner v => { s with bottom := v }
  | _ => s

/-- Effect of a trace on the spinner powers. -/
def Spinners.run (s : Spinners) (es : List Event) : Spinners :=
  es.foldl Spinners.step s

/-- Whether an event is a command to one of the two spinner motors. -/
def Event.isSpinnerCommand : Event → Bool
  | Event.move Motor.TopSpinner _ => true
  | Event.move Motor.BottomSpinner _ => true
  | _ => false

/-- Whether every two consecutive sensor reads of a trace have a delay of
positive duration between them; `pending` tells that a read has been seen
since the last such delay. -/
def delayBetweenReads : Bool → List Event → Bool
  | _, [] => true
  | pending, Event.get_hue _ :: es => !pending && delayBetweenReads true es
  | pending, Event.delay ms :: es =>
    if 0 < ms then delayBetweenReads false es else delayBetweenReads pending es
  | pending, _ :: es => delayBetweenReads pending es

/-- The observations of a run in which the flag is seen true at every loop
check and the sensor returns the samples `hs` in order. -/
def enabledRun (hs : List Double) : List Obs :=
  hs.map (Obs.mk true)

/-- The outcome the specification gives for one sample read while sorting is
enabled: the sample is read; a sample strictly between 150 and 270 stops both
spinners and is followed by a dwell of 1000 ms; every other sample stops the
bottom spinner and runs the top spinner at 127. -/
def specOutcome : Double → List Event
  | Double.finite q =>
    if 150 < q ∧ q < 270 then
      [Event.get_hue (Double.finite q), Event.move Motor.BottomSpinner 0,
        Event.move Motor.TopSpinner 0, Event.delay 1000]
    else
      [Event.get_hue (Double.finite q), Event.move Motor.BottomSpinner 0,
        Event.move Motor.TopSpinner 127]
  | h => [Event.get_hue h, Event.move Motor.BottomSpinner 0, Event.move Motor.TopSpinner 127]

/-- Whether an event is a sensor read. -/
def Event.isRead : Event → Bool
  | Event.get_hue _ => true
  | _ => false

/-! ## Driver control -/

/-- The global variables of the program, with the state of the scraper piston
(`true` when extended). -/
structure Globals where
  TopScore : Bool
  isScraperExtended : Bool
  colorsortOn : Bool
  scraper : Bool
  deriving DecidableEq

/-- The globals as initialised at program start: `TopScore = true`,
`isScraperExtended = false`, `colorsortOn = false`, and the piston built by
`scraper('H', false)`, that is retracted. -/
def Globals.init : Globals :=
  { TopScore := true, isScraperExtended := false, colorsortOn := false, scraper := false }

/-- The function `setIntake`, reading the global `TopScore`. -/
def setIntake (TopScore : Bool) (intakePower : Int) : List Event :=
  if TopScore then
    [Event.move Motor.intake intakePower, Event.move Motor.intake2 intakePower]
  else
    [Event.move Motor.intake intakePower,
      Event.move Motor.intake2 (wrapInt32 (intakePower * -1))]

/-- The controller readings of one iteration of the `opcontrol` loop, each
the `std::int32_t` returned by the call named. -/
structure Inputs where
  /-- Reading `get_analog(ANALOG_LEFT_Y)`. -/
  leftY : Int
  /-- Reading `get_analog(ANALOG_RIGHT_Y)`. -/
  rightY : Int
  /-- Reading `get_digital(DIGITAL_L2)`. -/
  L2 : Int
  /-- Reading `get_digital_new_press(DIGITAL_DOWN)`. -/
  DOWN : Int
  /-- Reading `get_digital(DIGITAL_R1)`. -/
  R1 : Int
  /-- Reading `get_digital(DIGITAL_R2)`. -/
  R2 : Int
  /-- Reading `get_digital_new_press(DIGITAL_L1)`. -/
  L1 : Int
  deriving DecidableEq

/-- The globals after the statement `colorsortOn = false;` and the `if` on
`DIGITAL_L2`, with the events of that `if`. -/
def opcontrolL2 (g : Globals) (i : Inputs) : Globals × List Event :=
  let g := { g with colorsortOn := false }
  if i.L2 ≠ 0 then
    ({ g with colorsortOn := false },
      [Event.move Motor.BottomSpinner (-127), Event.move Motor.TopSpinner 0])
  else
    ({ g with colorsortOn := true }, [])

/-- The `if` on a new press of `DIGITAL_DOWN`. -/
def opcontrolScraper (g : Globals) (i : Inputs) : Globals × List Event :=
  if i.DOWN ≠ 0 then
    if g.isScraperExtended then
      ({ g with scraper := false, isScraperExtended := false }, [Event.retract])
    else
      ({ g with scraper := true, isScraperExtended := true }, [Event.extend])
  else
    (g, [])

/-- The argument `(get_digital(R1) - get_digital(R2)) * 127` of the call of
`setIntake` in `opcontrol`. -/
def teleopIntakePower (i : Inputs) : Int :=
  wrapInt32 (wrapInt32 (i.R1 - i.R2) * 127)

/-- The `if` on a new press of `DIGITAL_L1`. -/
def opcontrolTopScore (g : Globals) (i : Inputs) : Globals :=
  if i.L1 ≠ 0 then
    if g.TopScore then { g with TopScore := false } else { g with TopScore := true }
  else
    g

/-- One iteration of the `while (true)` loop of `opcontrol`. -/
def opcontrolIter (g : Globals) (i : Inputs) : Globals × List Event :=
  let r1 := opcontrolL2 g i
  let r2 := opcontrolScraper r1.1 i
  let ev3 := setIntake r2.1.TopScore (teleopIntakePower i)
  let g4 := opcontrolTopScore r2.1 i
  (g4, Event.tank i.leftY i.rightY :: r1.2 ++ r2.2 ++ ev3 ++ [Event.delay 25])

/-- The loop of `opcontrol`, run for one iteration per element of the list. -/
def opcontrolLoop : Globals → List Inputs → Globals × List Event
  | g, [] => (g, [])
  | g, i :: is =>
    let r := opcontrolIter g i
    let r' := opcontrolLoop r.1 is
    (r'.1, r.2 ++ r'.2)

/-- The function `opcontrol`: the two brake-mode calls, then the loop. -/
def opcontrol (g : Globals) (is : List Inputs) : Globals × List Event :=
  let r := opcontrolLoop g is
  (r.1, Event.set_brake_mode Motor.intake :: Event.set_brake_mode Motor.intake2 :: r.2)

/-- Whether an event is a command to one of the two intake motors. -/
def Event.isIntakeCommand : Event → Bool
  | Event.move Motor.intake _ => true
  | Event.move Motor.intake2 _ => true
  | _ => false

/-! ## Lemmas on the colour task -/

theorem isBlue_finite (q : ℚ) : isBlue (Double.finite q) = decide (150 < q ∧ q < 270) := by
  simp [isBlue, Double.gt, Double.lt, Double.ofInt]

theorem isBlue_nan : isBlue Double.nan = false := by
  simp [isBlue, Double.gt, Double.lt, Double.ofInt]

theorem isBlue_posInf : isBlue Double.posInf = false := by
  simp [isBlue, Double.gt, Double.lt, Double.ofInt]

theorem isBlue_negInf : isBlue Double.negInf = false := by
  simp [isBlue, Double.gt, Double.lt, Double.ofInt]

theorem colorSort_cons_true (h : Double) (rest : List Obs) :
    colorSort (Obs.mk true h :: rest) =
      (colorSortBody h ++ (colorSort rest).1, (colorSort rest).2) := by
  simp [colorSort]

theorem colorSortBody_eq_specOutcome (h : Double) : colorSortBody h = specOutcome h := by
  cases h with
  | nan => simp [colorSortBody, isBlue_nan, specOutcome]
  | negInf => simp [colorSortBody, isBlue_negInf, specOutcome]
  | posInf => simp [colorSortBody, isBlue_posInf, specOutcome]
  | finite q =>
    by_cases hq : 150 < q ∧ q < 270
    · simp [colorSortBody, isBlue_finite, specOutcome, hq]
    · simp only [colorSortBody, isBlue_finite, specOutcome, hq, decide_False, if_false]
      simp

theorem colorSort_enabledRun (hs : List Double) :
    colorSort (enabledRun hs) = (hs.flatMap colorSortBody, none) := by
  induction hs with
  | nil => simp [enabledRun, colorSort]
  | cons h hs ih =>
    have e : enabledRun (h :: hs) = Obs.mk true h :: enabledRun hs := rfl
    rw [e, colorSort_cons_true, ih, List.flatMap_cons]

theorem Spinners.run_append (s : Spinners) (es fs : List Event) :
    s.run (es ++ fs) = (s.run es).run fs := by
  simp [Spinners.run, List.foldl_append]

theorem colorSort_enabledRun_append (hs : List Double) (rest : List Obs) :
    colorSort (enabledRun hs ++ rest) =
      (hs.flatMap colorSortBody ++ (colorSort rest).1, (colorSort rest).2) := by
  induction hs with
  | nil => simp [enabledRun]
  | cons h hs ih =>
    have e : enabledRun (h :: hs) ++ rest = Obs.mk true h :: (enabledRun hs ++ rest) := rfl
    rw [e, colorSort_cons_true, ih, List.flatMap_cons, List.append_assoc]

theorem Spinners.run_colorSortBody_eq (s : Spinners) (h : Double) :
    s.run (colorSortBody h) = { top := if isBlue h then 0 else 127, bottom := 0 } := by
  cases hb : isBlue h <;> simp [colorSortBody, hb, Spinners.run, Spinners.step]

/-! ## The colour task: claims -/

/-- C1: for every hue strictly between 150 and 270, an iteration of the
`colorSort` loop entered with `colorsortOn` true reads the sample, commands
`BottomSpinner` 0 and `TopSpinner` 0 and then delays 1000 ms; whatever the loop
does next, the next sensor read included, comes after that delay. -/
theorem colorSort_target_iteration (q : ℚ) (rest : List Obs) (hlo : 150 < q) (hhi : q < 270) :
    colorSort (Obs.mk true (Double.finite q) :: rest) =
      (Event.get_hue (Double.finite q) :: Event.move Motor.BottomSpinner 0 ::
        Event.move Motor.TopSpinner 0 :: Event.delay 1000 :: (colorSort rest).1,
        (colorSort rest).2) := by
  rw [colorSort_cons_true]
  simp [colorSortBody, isBlue_finite, hlo, hhi]

/-- The target iteration at hue 200, with nothing observed after it. -/
theorem colorSort_target_iteration_witness :
    colorSort [Obs.mk true (Double.finite 200)] =
      ([Event.get_hue (Double.finite 200), Event.move Motor.BottomSpinner 0,
        Event.move Motor.TopSpinner 0, Event.delay 1000], none) :=
  colorSort_target_iteration 200 [] (by norm_num) (by norm_num)

/-- C2: for every hue `h` with `h <= 150` or `h >= 270` (the bounds 150 and
270 themselves, negative readings, 360 and above and the infinities included),
an iteration of the `colorSort` loop entered with `colorsortOn` true takes the
non-target branch: it reads the sample and commands `BottomSpinner` 0 and
`TopSpinner` 127, with no delay and no failure. -/
theorem colorSort_other_iteration (h : Double) (rest : List Obs)
    (hh : Double.le h (Double.ofInt 150) = true ∨ Double.le (Double.ofInt 270) h = true) :
    isBlue h = false ∧
    colorSort (Obs.mk true h :: rest) =
      (Event.get_hue h :: Event.move Motor.BottomSpinner 0 ::
        Event.move Motor.TopSpinner 127 :: (colorSort rest).1, (colorSort rest).2) := by
  have hb : isBlue h = false := by
    cases h with
    | nan => exact isBlue_nan
    | negInf => exact isBlue_negInf
    | posInf => exact isBlue_posInf
    | finite q =>
      rw [isBlue_finite]
      simp only [Double.le, Double.ofInt, decide_eq_true_eq] at hh
      simp only [decide_eq_false_iff_not, not_and, not_lt]
      intro h150
      rcases hh with hh | hh
      · exact absurd h150 (not_lt.mpr (by exact_mod_cast hh))
      · exact_mod_cast hh
  refine ⟨hb, ?_⟩
  rw [colorSort_cons_true]
  simp [colorSortBody, hb]

/-- The non-target iteration at hue exactly 150, with nothing observed after it. -/
theorem colorSort_other_iteration_witness :
    isBlue (Double.finite 150) = false ∧
    colorSort [Obs.mk true (Double.finite 150)] =
      ([Event.get_hue (Double.finite 150), Event.move Motor.BottomSpinner 0,
        Event.move Motor.TopSpinner 127], none) :=
  colorSort_other_iteration (Double.finite 150) [] (Or.inl (by decide))

/-- C3: when `colorsortOn` is false at the loop check, `colorSort` returns at
once without any event, whatever the sensor would have read: no command goes
to `TopSpinner` or `BottomSpinner`, the spinner powers stay as they were, and
the pass of the colour task consists of the 10 ms delay alone. -/
theorem colorSort_disabled_is_silent (h : Double) (rest : List Obs) (fuel : Nat)
    (s : Spinners) :
    colorSort (Obs.mk false h :: rest) = ([], some rest) ∧
    (colorSort (Obs.mk false h :: rest)).1.filter Event.isSpinnerCommand = [] ∧
    s.run (colorSort (Obs.mk false h :: rest)).1 = s ∧
    colorTask (fuel + 1) (Obs.mk false h :: rest) = Event.delay 10 :: colorTask fuel rest := by
  have e : colorSort (Obs.mk false h :: rest) = ([], some rest) := by simp [colorSort]
  refine ⟨e, ?_, ?_, ?_⟩
  · rw [e]; rfl
  · rw [e]; rfl
  · simp [colorTask, e]

/-- C4 (the code departs from it): with `colorsortOn` true and two non-target
samples in a row, the colour task reads the sensor twice with no delay in
between; the only delay of the run is the 10 ms one after the flag has turned
false. -/
theorem colorTask_nonTarget_reads_back_to_back :
    colorTask 1 [Obs.mk true (Double.finite 50), Obs.mk true (Double.finite 50),
        Obs.mk false (Double.finite 50)] =
      [Event.get_hue (Double.finite 50), Event.move Motor.BottomSpinner 0,
        Event.move Motor.TopSpinner 127,
        Event.get_hue (Double.finite 50), Event.move Motor.BottomSpinner 0,
        Event.move Motor.TopSpinner 127, Event.delay 10] ∧
    delayBetweenReads false
      (colorTask 1 [Obs.mk true (Double.finite 50), Obs.mk true (Double.finite 50),
        Obs.mk false (Double.finite 50)]) = false := by
  constructor <;> decide

/-- C5: for every finite sequence of samples read while `colorsortOn` stays
true, the trace of `colorSort` is the concatenation, in order, of the outcomes
the specification gives for each sample, both while the loop is still running
and when it then sees the flag false and returns; for the samples 200, 200, 50
the commands are (0,0), dwell, (0,0), dwell, (127,0). -/
theorem colorSort_trace_is_concatenation (hs : List Double) (h : Double) (rest : List Obs) :
    colorSort (enabledRun hs) = (hs.flatMap specOutcome, none) ∧
    colorSort (enabledRun hs ++ Obs.mk false h :: rest) = (hs.flatMap specOutcome, some rest) ∧
    (colorSort (enabledRun [Double.finite 200, Double.finite 200, Double.finite 50])).1.filter
        (fun e => !e.isRead) =
      [Event.move Motor.BottomSpinner 0, Event.move Motor.TopSpinner 0, Event.delay 1000,
        Event.move Motor.BottomSpinner 0, Event.move Motor.TopSpinner 0, Event.delay 1000,
        Event.move Motor.BottomSpinner 0, Event.move Motor.TopSpinner 127] := by
  have hf : colorSortBody = specOutcome := funext colorSortBody_eq_specOutcome
  refine ⟨?_, ?_, by decide⟩
  · rw [colorSort_enabledRun, hf]
  · rw [colorSort_enabledRun_append, hf]
    simp [colorSort]

/-- C6: the commands of an enabled iteration are a function of the sample it
reads alone: after any history of earlier enabled samples and from any earlier
spinner powers, the iteration that reads `h` emits the events of
`colorSortBody h` and leaves the powers at top = 0 or 127 according to the
band test on `h`, bottom = 0, so two such iterations reading the same hue
command the same powers. -/
theorem colorSort_commands_depend_on_sample_only (pre₁ pre₂ : List Double) (h : Double)
    (s₁ s₂ : Spinners) :
    (colorSort (enabledRun (pre₁ ++ [h]))).1 =
      (colorSort (enabledRun pre₁)).1 ++ colorSortBody h ∧
    s₁.run (colorSort (enabledRun (pre₁ ++ [h]))).1 =
      { top := if isBlue h then 0 else 127, bottom := 0 } ∧
    s₁.run (colorSort (enabledRun (pre₁ ++ [h]))).1 =
      s₂.run (colorSort (enabledRun (pre₂ ++ [h]))).1 := by
  have key : ∀ (pre : List Double) (s : Spinners),
      s.run (colorSort (enabledRun (pre ++ [h]))).1 =
        { top := if isBlue h then 0 else 127, bottom := 0 } := by
    intro pre s
    rw [colorSort_enabledRun, List.flatMap_append, Spinners.run_append]
    simp only [List.flatMap_cons, List.flatMap_nil, List.append_nil]
    exact Spinners.run_colorSortBody_eq _ h
  refine ⟨?_, key pre₁ s₁, ?_⟩
  · rw [colorSort_enabledRun, colorSort_enabledRun, List.flatMap_append]
    simp
  · rw [key pre₁ s₁, key pre₂ s₂]

/-! ## Lemmas on driver control -/

theorem wrapInt32_of_small (x : Int) (hlo : -2147483648 ≤ x) (hhi : x ≤ 2147483647) :
    wrapInt32 x = x := by
  unfold wrapInt32
  omega

theorem opcontrolLoop_append (g : Globals) (is js : List Inputs) :
    opcontrolLoop g (is ++ js) =
      ((opcontrolLoop (opcontrolLoop g is).1 js).1,
        (opcontrolLoop g is).2 ++ (opcontrolLoop (opcontrolLoop g is).1 js).2) := by
  induction is generalizing g with
  | nil => simp [opcontrolLoop]
  | cons i is ih => simp [opcontrolLoop, ih]

theorem opcontrolLoop_singleton (g : Globals) (i : Inputs) :
    opcontrolLoop g [i] = opcontrolIter g i := by
  simp [opcontrolLoop]

theorem opcontrolIter_colorsortOn (g : Globals) (i : Inputs) :
    (opcontrolIter g i).1.colorsortOn = decide (i.L2 = 0) := by
  simp only [opcontrolIter, opcontrolL2, opcontrolScraper, opcontrolTopScore]
  split_ifs <;> simp_all

theorem opcontrolIter_spinnerCommands (g : Globals) (i : Inputs) :
    (opcontrolIter g i).2.filter Event.isSpinnerCommand =
      if i.L2 ≠ 0 then
        [Event.move Motor.BottomSpinner (-127), Event.move Motor.TopSpinner 0]
      else [] := by
  simp only [opcontrolIter, opcontrolL2, opcontrolScraper, setIntake]
  split_ifs <;> simp [Event.isSpinnerCommand, List.filter]

theorem opcontrolIter_TopScore (g : Globals) (i : Inputs) :
    (opcontrolIter g i).1.TopScore = if i.L1 ≠ 0 then !g.TopScore else g.TopScore := by
  simp only [opcontrolIter, opcontrolL2, opcontrolScraper, opcontrolTopScore]
  split_ifs <;> simp_all

theorem opcontrolIter_intakeCommands (g : Globals) (i : Inputs) :
    (opcontrolIter g i).2.filter Event.isIntakeCommand =
      setIntake g.TopScore (teleopIntakePower i) := by
  simp only [opcontrolIter, opcontrolL2, opcontrolScraper, setIntake]
  split_ifs <;> simp [Event.isIntakeCommand, List.filter]

theorem opcontrolIter_isScraperExtended (g : Globals) (i : Inputs) :
    (opcontrolIter g i).1.isScraperExtended =
      if i.DOWN ≠ 0 then !g.isScraperExtended else g.isScraperExtended := by
  simp only [opcontrolIter, opcontrolL2, opcontrolScraper, opcontrolTopScore]
  split_ifs <;> simp_all

theorem opcontrolIter_scraper (g : Globals) (i : Inputs) :
    (opcontrolIter g i).1.scraper =
      if i.DOWN ≠ 0 then !g.isScraperExtended else g.scraper := by
  simp only [opcontrolIter, opcontrolL2, opcontrolScraper, opcontrolTopScore]
  split_ifs <;> simp_all

theorem opcontrolLoop_scraper_invariant (g : Globals) (is : List Inputs)
    (hg : g.isScraperExtended = g.scraper) :
    (opcontrolLoop g is).1.isScraperExtended = (opcontrolLoop g is).1.scraper := by
  induction is generalizing g with
  | nil => simpa [opcontrolLoop] using hg
  | cons i is ih =>
    simp only [opcontrolLoop]
    apply ih
    rw [opcontrolIter_isScraperExtended, opcontrolIter_scraper]
    split_ifs <;> simp [hg]

theorem opcontrolLoop_TopScore_of_no_press (g : Globals) (is : List Inputs)
    (hno : ∀ m ∈ is, m.L1 = 0) :
    (opcontrolLoop g is).1.TopScore = g.TopScore := by
  induction is generalizing g with
  | nil => simp [opcontrolLoop]
  | cons i is ih =>
    simp only [opcontrolLoop]
    rw [ih _ (fun m hm => hno m (List.mem_cons_of_mem _ hm)), opcontrolIter_TopScore]
    simp [hno i (List.mem_cons_self _ _)]

/-! ## Driver control: claims -/

/-- C7: at the end of every iteration of the `opcontrol` loop, from any
globals and after any earlier iterations, `colorsortOn` is false exactly when
`DIGITAL_L2` was read as held in that iteration and true otherwise; the
iteration commands the spinners itself exactly when L2 is held, and then with
`BottomSpinner` -127 and `TopSpinner` 0. -/
theorem opcontrol_L2_override (g : Globals) (is : List Inputs) (i : Inputs) :
    ((opcontrolIter g i).1.colorsortOn = false ↔ i.L2 ≠ 0) ∧
    ((opcontrolIter g i).1.colorsortOn = true ↔ i.L2 = 0) ∧
    ((opcontrol g (is ++ [i])).1.colorsortOn = false ↔ i.L2 ≠ 0) ∧
    (opcontrolIter g i).2.filter Event.isSpinnerCommand =
      (if i.L2 ≠ 0 then
        [Event.move Motor.BottomSpinner (-127), Event.move Motor.TopSpinner 0]
      else []) := by
  refine ⟨?_, ?_, ?_, opcontrolIter_spinnerCommands g i⟩
  · rw [opcontrolIter_colorsortOn]; simp
  · rw [opcontrolIter_colorsortOn]; simp
  · simp only [opcontrol]
    rw [opcontrolLoop_append, opcontrolLoop_singleton, opcontrolIter_colorsortOn]
    simp

/-- C8: for every power `p` from -127 to 127, `setIntake(p)` commands `intake`
with `p` and `intake2` with `p` when `TopScore` is true and with `-p` when it
is false; with the driver-control argument `(R1 - R2) * 127` for button
readings 0 or 1, every power it commands is -127, 0 or 127, hence within
-127 .. 127. -/
theorem setIntake_powers (p : Int) (TopScore : Bool) (i : Inputs)
    (hlo : -127 ≤ p) (hhi : p ≤ 127)
    (hR1 : i.R1 = 0 ∨ i.R1 = 1) (hR2 : i.R2 = 0 ∨ i.R2 = 1) :
    setIntake TopScore p =
      [Event.move Motor.intake p, Event.move Motor.intake2 (if TopScore then p else -p)] ∧
    teleopIntakePower i = (i.R1 - i.R2) * 127 ∧
    (∀ m v, Event.move m v ∈ setIntake TopScore (teleopIntakePower i) →
      (v = -127 ∨ v = 0 ∨ v = 127) ∧ -127 ≤ v ∧ v ≤ 127) := by
  refine ⟨?_, ?_, ?_⟩
  · cases TopScore
    · have hw : wrapInt32 (p * -1) = -p := by
        rw [wrapInt32_of_small _ (by omega) (by omega)]; ring
      simp only [setIntake, hw]
      simp
    · simp [setIntake]
  · rcases hR1 with h1 | h1 <;> rcases hR2 with h2 | h2 <;>
      simp [teleopIntakePower, h1, h2, wrapInt32]
  · intro m v hm
    rcases hR1 with h1 | h1 <;> rcases hR2 with h2 | h2 <;> cases TopScore <;>
      simp [teleopIntakePower, setIntake, h1, h2, wrapInt32] at hm <;>
      rcases hm with ⟨-, rfl⟩ | ⟨-, rfl⟩ <;> decide

/-- The intake commands at power 90 with `TopScore` false, and with only R2 held. -/
theorem setIntake_powers_witness :
    setIntake false 90 = [Event.move Motor.intake 90, Event.move Motor.intake2 (-90)] ∧
    teleopIntakePower ⟨0, 0, 0, 0, 0, 1, 0⟩ = -127 ∧
    (∀ m v, Event.move m v ∈ setIntake false (teleopIntakePower ⟨0, 0, 0, 0, 0, 1, 0⟩) →
      (v = -127 ∨ v = 0 ∨ v = 127) ∧ -127 ≤ v ∧ v ≤ 127) :=
  setIntake_powers 90 false ⟨0, 0, 0, 0, 0, 1, 0⟩ (by decide) (by decide)
    (Or.inl rfl) (Or.inr rfl)

/-- C9: from the initial globals (`isScraperExtended` false, piston
retracted), after any number of `opcontrol` loop iterations with arbitrary
inputs, `isScraperExtended` equals the state of the scraper piston; the next
iteration flips both when it reads a new press of `DIGITAL_DOWN` and changes
neither when it does not. -/
theorem opcontrol_scraper_flag_tracks_piston (is : List Inputs) (i : Inputs) :
    (opcontrol Globals.init is).1.isScraperExtended = (opcontrol Globals.init is).1.scraper ∧
    (opcontrolIter (opcontrol Globals.init is).1 i).1.isScraperExtended =
      (if i.DOWN ≠ 0 then !(opcontrol Globals.init is).1.isScraperExtended
        else (opcontrol Globals.init is).1.isScraperExtended) ∧
    (opcontrolIter (opcontrol Globals.init is).1 i).1.scraper =
      (if i.DOWN ≠ 0 then !(opcontrol Globals.init is).1.scraper
        else (opcontrol Globals.init is).1.scraper) := by
  have inv : (opcontrolLoop Globals.init is).1.isScraperExtended =
      (opcontrolLoop Globals.init is).1.scraper :=
    opcontrolLoop_scraper_invariant Globals.init is rfl
  simp only [opcontrol]
  refine ⟨inv, opcontrolIter_isScraperExtended _ i, ?_⟩
  rw [opcontrolIter_scraper, inv]

/-- C10: an `opcontrol` iteration negates `TopScore` when it reads a new press
of `DIGITAL_L1` and leaves it unchanged otherwise, so two presses, with any
number of iterations without a press in between, restore the value; the
intake commands of an iteration are those of `setIntake` under the value of
`TopScore` from before that iteration, also when L1 is pressed in it, and the
negated value is used from the next iteration on. -/
theorem opcontrol_TopScore_toggle (g : Globals) (k i j : Inputs) (mid : List Inputs)
    (hi : i.L1 ≠ 0) (hj : j.L1 ≠ 0) (hmid : ∀ m ∈ mid, m.L1 = 0) :
    (opcontrolIter g k).1.TopScore = (if k.L1 ≠ 0 then !g.TopScore else g.TopScore) ∧
    (opcontrolLoop g (i :: mid ++ [j])).1.TopScore = g.TopScore ∧
    (opcontrolIter g i).2.filter Event.isIntakeCommand =
      setIntake g.TopScore (teleopIntakePower i) ∧
    (opcontrolIter (opcontrolIter g i).1 j).2.filter Event.isIntakeCommand =
      setIntake (!g.TopScore) (teleopIntakePower j) := by
  refine ⟨opcontrolIter_TopScore g k, ?_, opcontrolIter_intakeCommands g i, ?_⟩
  · have e : i :: mid ++ [j] = [i] ++ (mid ++ [j]) := rfl
    rw [e, opcontrolLoop_append, opcontrolLoop_append, opcontrolLoop_singleton,
      opcontrolLoop_singleton]
    simp only []
    rw [opcontrolIter_TopScore, opcontrolLoop_TopScore_of_no_press _ mid hmid,
      opcontrolIter_TopScore]
    simp [hi, hj]
  · rw [opcontrolIter_intakeCommands, opcontrolIter_TopScore]
    simp [hi]

/-- Two L1 presses around one press-free iteration, from the initial globals. -/
theorem opcontrol_TopScore_toggle_witness :
    (opcontrolIter Globals.init ⟨0, 0, 0, 0, 0, 0, 0⟩).1.TopScore =
      (if (0 : Int) ≠ 0 then !Globals.init.TopScore else Globals.init.TopScore) ∧
    (opcontrolLoop Globals.init
      (⟨0, 0, 0, 0, 1, 0, 1⟩ :: [⟨0, 0, 0, 0, 1, 0, 0⟩] ++ [⟨0, 0, 0, 0, 0, 0, 1⟩])).1.TopScore =
      Globals.init.TopScore ∧
    (opcontrolIter Globals.init ⟨0, 0, 0, 0, 1, 0, 1⟩).2.filter Event.isIntakeCommand =
      setIntake Globals.init.TopScore (teleopIntakePower ⟨0, 0, 0, 0, 1, 0, 1⟩) ∧
    (opcontrolIter (opcontrolIter Globals.init ⟨0, 0, 0, 0, 1, 0, 1⟩).1
        ⟨0, 0, 0, 0, 0, 0, 1⟩).2.filter Event.isIntakeCommand =
      setIntake (!Globals.init.TopScore) (teleopIntakePower ⟨0, 0, 0, 0, 0, 0, 1⟩) :=
  opcontrol_TopScore_toggle Globals.init ⟨0, 0, 0, 0, 0, 0, 0⟩ ⟨0, 0, 0, 0, 1, 0, 1⟩
    ⟨0, 0, 0, 0, 0, 0, 1⟩ [⟨0, 0, 0, 0, 1, 0, 0⟩] (by decide) (by decide) (by decide)

end Robot
